import Mathlib

/-!
Verification of the client-side datastore transaction coordinator
(`google.cloud.datastore.transaction` / `batch`) and of the type-URL
registry of the long-running-operation helper (`gcloud/operation.py`).

The transaction and batch implementation files are not part of the staged
sources (only their unit tests are), so the Transaction/Batch data model and
operations below are modelled from the specification's words; the
registry functions are embedded directly from `src/gcloud/operation.py`.
-/

namespace GCDatastore

/-- One element of a datastore key path: a kind plus an optional final
(server-assigned) numeric identifier. -/
structure PathElem where
  kind : String
  id : Option Nat
deriving DecidableEq, Repr

/-- Modelled from the spec: the entity/key collaborator contract — "a key
exposes whether it is complete (has a final identifier) and supports in-place
replacement of its path/identifier".  (`google.cloud.datastore.key` is not
under the staged sources.) -/
structure Key where
  project : String
  path : List PathElem
deriving DecidableEq, Repr

instance : Inhabited Key := ⟨⟨"", []⟩⟩

/-- A key is complete when its last path element carries a final identifier. -/
def Key.is_complete (k : Key) : Bool :=
  match k.path.getLast? with
  | some e => e.id.isSome
  | none => false

/-- Entities are held in a per-run store, indexed by position; an entity's
identity is its index, and its mutable `key` field is the stored `Key`.
This models "opaque value types with identity semantics". -/
abbrev EntityStore := List Key

/-- Modelled from the spec: a Mutation is "an opaque staged operation
(upsert-entity or delete-by-key) in the order staged". Upserts record the
staged entity by identity. -/
inductive Mutation where
  | upsert (ent : Nat)
  | delete (key : Key)
deriving DecidableEq, Repr

/-- Modelled from the spec: unit-of-work status, "one of {NOT_STARTED,
IN_PROGRESS, ABORTED, COMMITTED}"; the Transaction's INITIAL state is the
NOT_STARTED state. -/
inductive Status where
  | INITIAL
  | IN_PROGRESS
  | ABORTED
  | COMMITTED
deriving DecidableEq, Repr

/-- Commit mode of the Commit RPC. -/
inductive Mode where
  | NON_TRANSACTIONAL
  | TRANSACTIONAL
deriving DecidableEq, Repr

/-- The RPC surface consumed by the coordinator, recorded as a log of issued
calls: BeginTransaction(project), Commit(project, mode, mutations,
transaction_id?), Rollback(project, transaction_id). -/
inductive RPC where
  | beginTransaction (project : String)
  | commit (project : String) (mode : Mode) (mutations : List Mutation) (txid : Option Nat)
  | rollback (project : String) (txid : Nat)
deriving DecidableEq, Repr

/-- Errors surfaced by the coordinator: local state-violation errors
(ValueError) and transport/service errors propagated unchanged from the RPC
layer (payload kept opaque as a number). -/
inductive Err where
  | ValueError
  | Transport (e : Nat)
deriving DecidableEq, Repr

/-- Modelled from the spec: the Transaction data model
(`google.cloud.datastore.transaction.Transaction` is not under the staged
sources) — project, server-assigned `id` (`none` before begin and after
rollback/commit), status, ordered mutation list, and the ordered list of
entities staged with partial keys awaiting server-assigned identifiers. -/
structure Transaction where
  project : String
  id : Option Nat
  status : Status
  mutations : List Mutation
  partial_key_entities : List Nat
deriving DecidableEq, Repr

/-- Modelled from the spec: the constructor — a fresh Transaction has no id,
INITIAL status, no buffered mutations and no tracked partial-key entities. -/
def Transaction.init (project : String) : Transaction :=
  { project := project
    id := none
    status := Status.INITIAL
    mutations := []
    partial_key_entities := [] }

/-- Modelled from the spec: `begin()` — requires current state INITIAL (else
fails with a state-violation error before any RPC); issues a BeginTransaction
RPC scoped to the project; on success stores the returned transaction
identifier and marks IN_PROGRESS; on RPC failure leaves `id` unset and
re-raises the transport error, committing no partial state.  The transport is
abstracted as `server : Except Nat Nat` (the server-side outcome of the one
BeginTransaction call).  Returns (outcome, state afterwards, RPCs issued). -/
def Transaction.begin (t : Transaction) (server : Except Nat Nat) :
    Except Err Unit × Transaction × List RPC :=
  if t.status = Status.INITIAL then
    match server with
    | Except.ok tid =>
        (Except.ok (),
         { t with id := some tid, status := Status.IN_PROGRESS },
         [RPC.beginTransaction t.project])
    | Except.error e =>
        (Except.error (Err.Transport e), t, [RPC.beginTransaction t.project])
  else
    (Except.error Err.ValueError, t, [])

/-- Modelled from the spec: `put(entity)` — appends an upsert mutation built
from the entity's current key; if that key lacks a final identifier the
entity is additionally recorded in `partial_key_entities`, in mutation
order. -/
def Transaction.put (t : Transaction) (store : EntityStore) (ent : Nat) : Transaction :=
  { t with
    mutations := t.mutations ++ [Mutation.upsert ent]
    partial_key_entities :=
      if (store.getD ent default).is_complete then t.partial_key_entities
      else t.partial_key_entities ++ [ent] }

/-- Patch-back of server-assigned keys: zip the ordered partial-key-entity
list with the returned completed keys positionally and overwrite each
entity's key path in place. -/
def patch_keys : EntityStore → List Nat → List Key → EntityStore
  | store, [], _ => store
  | store, _ :: _, [] => store
  | store, ent :: ents, k :: ks =>
      patch_keys (store.set ent { store.getD ent default with path := k.path }) ents ks

/-- Modelled from the spec: `commit()` — requires an active transaction id
(else a local state-violation error before any RPC); issues one Commit RPC
with mode TRANSACTIONAL carrying the transaction id and the buffered mutation
list; patches the server-returned completed keys onto the partial-key
entities positionally; clears `id`, marking the transaction consumed.  The
server's response (the list of completed keys) is abstracted as `returned`.
Returns (outcome, state afterwards, entity store afterwards, RPCs issued). -/
def Transaction.commit (t : Transaction) (store : EntityStore) (returned : List Key) :
    Except Err Unit × Transaction × EntityStore × List RPC :=
  match t.id with
  | none => (Except.error Err.ValueError, t, store, [])
  | some tid =>
      (Except.ok (),
       { t with id := none, status := Status.COMMITTED },
       patch_keys store t.partial_key_entities returned,
       [RPC.commit t.project Mode.TRANSACTIONAL t.mutations (some tid)])

/-- Modelled from the spec: `rollback()` — if an id is set, issues one
Rollback RPC with the project and that id and clears `id`, tombstoning the
instance (status ABORTED); with no active id it is a no-op. -/
def Transaction.rollback (t : Transaction) : Transaction × List RPC :=
  match t.id with
  | none => (t, [])
  | some tid =>
      ({ t with id := none, status := Status.ABORTED },
       [RPC.rollback t.project tid])

/-- Modelled from the spec: the Batch data model
(`google.cloud.datastore.batch.Batch` is not under the staged sources) — the
base unit of work: a staging area for mutations plus non-transactional
commit. -/
structure Batch where
  project : String
  status : Status
  mutations : List Mutation
deriving DecidableEq, Repr

/-- A fresh Batch: NOT_STARTED (INITIAL) with an empty mutation buffer. -/
def Batch.init (project : String) : Batch :=
  { project := project, status := Status.INITIAL, mutations := [] }

/-- Modelled from the spec: `Batch.commit()` — sends the buffered mutation
list as one non-transactional commit request; COMMITTED on success. -/
def Batch.commit (b : Batch) : Batch × List RPC :=
  ({ b with status := Status.COMMITTED },
   [RPC.commit b.project Mode.NON_TRANSACTIONAL b.mutations none])

/-- An entry of the per-client unit-of-work stack, tagged by whether it is a
plain Batch or a Transaction (the masking in `current()` distinguishes the
two by runtime type). -/
inductive UoW where
  | batch (b : Batch)
  | txn (t : Transaction)
deriving DecidableEq, Repr

/-- The per-client unit-of-work stack, innermost entry first. -/
abbrev Stack := List UoW

/-- Modelled from the spec: `current()`, invoked on a Transaction instance,
consults only the owning client's stack: it returns the innermost active
entry when that entry is itself a Transaction; a plain Batch on top — or an
empty stack — yields no current transaction, whichever instance asks. -/
def Transaction.current (_self : Transaction) (stack : Stack) : Option Transaction :=
  match stack.head? with
  | some (UoW.txn t) => some t
  | _ => none

/-- Modelled from the spec: scoped use of a Transaction (context-manager
semantics).  Entry pushes onto the client's stack and calls `begin()`; the
body stages the given entities via `put` and then either returns normally or
raises `body_err`; normal exit calls `commit()` then pops, exit via a raised
error calls `rollback()` then pops and re-raises the original error.  The
server's outcomes are abstracted: `server` for BeginTransaction, `returned`
for the commit response's completed keys.  Returns (error propagated to the
caller, transaction state, stack, entity store, RPC log). -/
def Transaction.with_scope (t : Transaction) (stack : Stack)
    (server : Except Nat Nat) (store : EntityStore)
    (puts : List Nat) (body_err : Option Err) (returned : List Key) :
    Option Err × Transaction × Stack × EntityStore × List RPC :=
  let entered := (UoW.txn t) :: stack
  match t.begin server with
  | (Except.error e, t1, rpcs1) =>
      -- begin() raised inside entry: the body never runs and exit never fires.
      (some e, t1, stack, store, rpcs1)
  | (Except.ok _, t1, rpcs1) =>
      let t2 := puts.foldl (fun acc ent => acc.put store ent) t1
      match body_err with
      | none =>
          let r := t2.commit store returned
          (none, r.2.1, entered.tail, r.2.2.1, rpcs1 ++ r.2.2.2)
      | some e =>
          let r := t2.rollback
          (some e, r.1, entered.tail, store, rpcs1 ++ r.2)

/-! ### Nested scoped units of work

A well-nested use of scoped units of work on one client is a forest of
scopes: each scope is a Transaction or a Batch used as a context manager,
its body runs child scopes in order, and after its children the body either
returns normally or raises (`raises`).  An error propagates: it skips the
remaining siblings and makes every enclosing scope exit via its error
path. -/

mutual
inductive Scope where
  | txnS (body : ScopeList) (raises : Bool)
  | batchS (body : ScopeList) (raises : Bool)
deriving DecidableEq, Repr
inductive ScopeList where
  | nil
  | cons (s : Scope) (ss : ScopeList)
deriving DecidableEq, Repr
end

/-- Result of running scopes: whether an error is propagating, the next
fresh server transaction id, how many units of work were opened, and the
RPC log. -/
structure RunResult where
  erred : Bool
  fresh : Nat
  opened : Nat
  log : List RPC
deriving DecidableEq, Repr

mutual
/-- Modelled from the spec: run one scoped unit of work on project `p`,
using the Transaction/Batch operations above.  A Transaction scope begins on
entry (the server assigns the next fresh id), runs its body, and exits via
`commit()` (normal) or `rollback()` (error); a Batch scope that exits via an
error pops without committing, issuing no RPC. -/
def runScope (p : String) (fresh : Nat) : Scope → RunResult
  | Scope.txnS body raises =>
      let b := (Transaction.init p).begin (Except.ok fresh)
      let r := runScopes p (fresh + 1) body
      if r.erred || raises then
        ⟨true, r.fresh, r.opened + 1, b.2.2 ++ r.log ++ (b.2.1.rollback).2⟩
      else
        ⟨false, r.fresh, r.opened + 1, b.2.2 ++ r.log ++ (b.2.1.commit [] []).2.2.2⟩
  | Scope.batchS body raises =>
      let r := runScopes p fresh body
      if r.erred || raises then
        ⟨true, r.fresh, r.opened + 1, r.log⟩
      else
        ⟨false, r.fresh, r.opened + 1, r.log ++ ((Batch.init p).commit).2⟩

/-- Run a body's child scopes in order, stopping at the first that ends in a
propagating error. -/
def runScopes (p : String) (fresh : Nat) : ScopeList → RunResult
  | ScopeList.nil => ⟨false, fresh, 0, []⟩
  | ScopeList.cons s ss =>
      let r1 := runScope p fresh s
      if r1.erred then
        ⟨true, r1.fresh, r1.opened, r1.log⟩
      else
        let r2 := runScopes p r1.fresh ss
        ⟨r2.erred, r2.fresh, r1.opened + r2.opened, r1.log ++ r2.log⟩
end

/-- Is this RPC a commit or a rollback call? -/
def RPC.isCommitRollback : RPC → Bool
  | RPC.commit _ _ _ _ => true
  | RPC.rollback _ _ => true
  | RPC.beginTransaction _ => false

/-- Number of commit/rollback RPC calls in a log. -/
def countCR (log : List RPC) : Nat :=
  (log.filter RPC.isCommitRollback).length

/-- Is this RPC a Commit call? -/
def RPC.isCommit : RPC → Bool
  | RPC.commit _ _ _ _ => true
  | _ => false

/-- Is this RPC a Rollback call? -/
def RPC.isRollback : RPC → Bool
  | RPC.rollback _ _ => true
  | _ => false

/-- Number of Commit RPC calls in a log. -/
def countCommits (log : List RPC) : Nat :=
  (log.filter RPC.isCommit).length

/-- Number of Rollback RPC calls in a log. -/
def countRollbacks (log : List RPC) : Nat :=
  (log.filter RPC.isRollback).length

mutual
/-- Does running this scope end in a propagating error? -/
def Scope.errs : Scope → Bool
  | Scope.txnS body raises => ScopeList.errs body || raises
  | Scope.batchS body raises => ScopeList.errs body || raises
/-- Does running these sibling scopes end in a propagating error? -/
def ScopeList.errs : ScopeList → Bool
  | ScopeList.nil => false
  | ScopeList.cons s ss => Scope.errs s || ScopeList.errs ss
end

mutual
/-- Units of work actually opened by a scope: itself plus the children its
body reaches (siblings after a propagating error are skipped). -/
def Scope.openedCount : Scope → Nat
  | Scope.txnS body _ => ScopeList.openedCount body + 1
  | Scope.batchS body _ => ScopeList.openedCount body + 1
def ScopeList.openedCount : ScopeList → Nat
  | ScopeList.nil => 0
  | ScopeList.cons s ss =>
      Scope.openedCount s + (if Scope.errs s then 0 else ScopeList.openedCount ss)
end

mutual
/-- Commit/rollback RPC calls a scope fires: every Transaction scope fires
exactly one (commit or rollback), a Batch scope fires one commit unless it
exits via an error, in which case it fires none. -/
def Scope.crCount : Scope → Nat
  | Scope.txnS body _ => ScopeList.crCount body + 1
  | Scope.batchS body raises =>
      ScopeList.crCount body + (if ScopeList.errs body || raises then 0 else 1)
def ScopeList.crCount : ScopeList → Nat
  | ScopeList.nil => 0
  | ScopeList.cons s ss =>
      Scope.crCount s + (if Scope.errs s then 0 else ScopeList.crCount ss)
end

/-! ### Reachable states of one Transaction instance -/

/-- One operation invoked on a Transaction instance, with the server-side
outcomes it depends on made explicit. -/
inductive Action where
  | beginT (server : Except Nat Nat)
  | putT (store : EntityStore) (ent : Nat)
  | commitT (store : EntityStore) (returned : List Key)
  | rollbackT

/-- The state of the instance after one operation (results, logs and the
entity store are projected away; only the instance's own state remains). -/
def Transaction.step (t : Transaction) : Action → Transaction
  | Action.beginT server => (t.begin server).2.1
  | Action.putT store ent => t.put store ent
  | Action.commitT store returned => (t.commit store returned).2.1
  | Action.rollbackT => (t.rollback).1

/-- The lifecycle invariant: the server-assigned `id` is present exactly when
the instance is IN_PROGRESS. -/
def txnInv (t : Transaction) : Prop :=
  t.id ≠ none ↔ t.status = Status.IN_PROGRESS

/-! ### Concrete sample data (used by witnesses) -/

/-- An entity store with two entities whose keys are partial (no final id). -/
def sampleStore : EntityStore :=
  [⟨"PROJECT", [⟨"KIND", none⟩]⟩, ⟨"PROJECT", [⟨"KIND", none⟩]⟩]

/-- A Transaction mid-flight: active id 234, both sample entities staged as
puts, both tracked as partial-key entities in staging order. -/
def sampleTxn : Transaction :=
  { project := "PROJECT"
    id := some 234
    status := Status.IN_PROGRESS
    mutations := [Mutation.upsert 0, Mutation.upsert 1]
    partial_key_entities := [0, 1] }

/-- The commit response: two completed keys, in the staging order of the two
partial-key mutations. -/
def sampleReturned : List Key :=
  [⟨"PROJECT", [⟨"KIND", some 123⟩]⟩, ⟨"PROJECT", [⟨"KIND", some 456⟩]⟩]

/-! ### Specification predicates for the scope interpreter -/

/-- What running one scope guarantees: the propagating-error flag, the
opened-units count and the commit/rollback RPC count match the structural
functions on scope trees. -/
def ScopeOK (s : Scope) : Prop :=
  ∀ p f, (runScope p f s).erred = Scope.errs s
    ∧ (runScope p f s).opened = Scope.openedCount s
    ∧ countCR (runScope p f s).log = Scope.crCount s

/-- The same guarantee for a list of sibling scopes. -/
def ScopeListOK (l : ScopeList) : Prop :=
  ∀ p f, (runScopes p f l).erred = ScopeList.errs l
    ∧ (runScopes p f l).opened = ScopeList.openedCount l
    ∧ countCR (runScopes p f l).log = ScopeList.crCount l

end GCDatastore

namespace GCOperation

/-! ### The type-URL registry of `src/gcloud/operation.py`

The registry `_TYPE_URL_MAP` is a dict from type URL to class; classes are
compared by identity (`is`), modelled as opaque numeric identities.  The
global dict is made an explicit argument and result. -/

/-- The registry: an association list from type URL to class identity, first
binding for a URL authoritative (URLs are never bound twice by the code). -/
abbrev TypeUrlMap := List (String × Nat)

/-- Lookup of a URL in the registry (`_TYPE_URL_MAP[type_url]` /
`type_url in _TYPE_URL_MAP`). -/
def mapLookup : TypeUrlMap → String → Option Nat
  | [], _ => none
  | (u0, k0) :: rest, u => if u0 = u then some k0 else mapLookup rest u

/-- Dict assignment `_TYPE_URL_MAP[type_url] = klass`: replace the binding
of the URL, or append a new one. -/
def mapInsert : TypeUrlMap → String → Nat → TypeUrlMap
  | [], u, k => [(u, k)]
  | (u0, k0) :: rest, u, k =>
      if u0 = u then (u, k) :: rest else (u0, k0) :: mapInsert rest u k

/-- Embedded from `src/gcloud/operation.py` (`_register_type_url`): if the
URL is already registered, and to a different class, raise ValueError (the
message names the existing class) before touching the registry; otherwise
assign the class to the URL.  Returns (error raised, registry afterwards). -/
def register_type_url (m : TypeUrlMap) (type_url : String) (klass : Nat) :
    Option Nat × TypeUrlMap :=
  match mapLookup m type_url with
  | some k0 =>
      if k0 ≠ klass then (some k0, m)
      else (none, mapInsert m type_url klass)
  | none => (none, mapInsert m type_url klass)

end GCOperation

/-! ## Theorems -/

namespace GCDatastore

theorem patch_keys_not_mem (ents : List Nat) :
    ∀ (store : EntityStore) (ks : List Key) (e : Nat), e ∉ ents →
      (patch_keys store ents ks).getD e default = store.getD e default := by
  induction ents with
  | nil => intro store ks e _; cases ks <;> rfl
  | cons ent ents ih =>
      intro store ks e he
      cases ks with
      | nil => rfl
      | cons k ks =>
          have hne : ent ≠ e := fun h => he (by simp [h])
          rw [patch_keys, ih _ ks e (fun h => he (List.mem_cons_of_mem _ h))]
          simp [List.getD_eq_getElem?_getD, List.getElem?_set_ne hne]

theorem patch_keys_get (ents : List Nat) :
    ∀ (store : EntityStore) (ks : List Key) (i : Nat)
      (hnodup : ents.Nodup) (hi : i < ents.length) (hik : i < ks.length),
      ents.get ⟨i, hi⟩ < store.length →
      ((patch_keys store ents ks).getD (ents.get ⟨i, hi⟩) default).path
        = (ks.get ⟨i, hik⟩).path := by
  induction ents with
  | nil => intro _ _ i _ hi; exact absurd hi (by simp)
  | cons ent ents ih =>
      intro store ks i hnodup hi hik hb
      cases ks with
      | nil => exact absurd hik (by simp)
      | cons k ks =>
          cases i with
          | zero =>
              have hmem : ent ∉ ents := (List.nodup_cons.mp hnodup).1
              have hget0 : (ent :: ents).get ⟨0, hi⟩ = ent := rfl
              have hgetk : (k :: ks).get ⟨0, hik⟩ = k := rfl
              rw [hget0] at hb ⊢
              rw [hgetk, patch_keys, patch_keys_not_mem ents _ ks ent hmem]
              simp [List.getD_eq_getElem?_getD,
                List.getElem?_set_eq_of_lt _ hb]
          | succ j =>
              have hj : j < ents.length := by
                simpa [Nat.succ_lt_succ_iff] using hi
              have hjk : j < ks.length := by
                simpa [Nat.succ_lt_succ_iff] using hik
              have hget : (ent :: ents).get ⟨j + 1, hi⟩ = ents.get ⟨j, hj⟩ := rfl
              rw [patch_keys]
              rw [hget] at hb ⊢
              exact ih _ ks j (List.nodup_cons.mp hnodup).2 hj hjk
                (by simpa [List.length_set] using hb)

/-- C1: key patch-back on commit — for a Transaction with an active id whose
staged mutations include K puts of partial-key entities (tracked, pairwise
distinct and present in the store), when commit() receives exactly K
completed keys from the server it overwrites the key path of the i-th
partial-key entity with the i-th returned key, positionally in staging
order, never swapped or offset. -/
theorem commit_patch_back (t : Transaction) (store : EntityStore)
    (returned : List Key) (tid : Nat) (hid : t.id = some tid)
    (hnodup : t.partial_key_entities.Nodup)
    (hbound : ∀ e ∈ t.partial_key_entities, e < store.length)
    (hlen : returned.length = t.partial_key_entities.length)
    (i : Nat) (hi : i < t.partial_key_entities.length) :
    (((t.commit store returned).2.2.1).getD
        (t.partial_key_entities.get ⟨i, hi⟩) default).path
      = (returned.get ⟨i, hlen ▸ hi⟩).path := by
  have hmem : t.partial_key_entities.get ⟨i, hi⟩ ∈ t.partial_key_entities :=
    List.get_mem _ _ hi
  have : (t.commit store returned).2.2.1
      = patch_keys store t.partial_key_entities returned := by
    simp [Transaction.commit, hid]
  rw [this]
  exact patch_keys_get t.partial_key_entities store returned i hnodup hi
    (hlen ▸ hi) (hbound _ hmem)

/-- Witness for C1: the sample Transaction stages entities 0 then 1 with
partial keys; the server returns completed keys with ids 123 then 456;
entity 0 receives 123 and entity 1 receives 456 — matched positionally,
never swapped. -/
theorem commit_patch_back_witness :
    (((sampleTxn.commit sampleStore sampleReturned).2.2.1).getD
        (sampleTxn.partial_key_entities.get ⟨0, by decide⟩) default).path
      = (sampleReturned.get ⟨0, by decide⟩).path
    ∧ (((sampleTxn.commit sampleStore sampleReturned).2.2.1).getD
        (sampleTxn.partial_key_entities.get ⟨1, by decide⟩) default).path
      = (sampleReturned.get ⟨1, by decide⟩).path
    ∧ (sampleReturned.get ⟨0, by decide⟩).path = [⟨"KIND", some 123⟩]
    ∧ (sampleReturned.get ⟨1, by decide⟩).path = [⟨"KIND", some 456⟩] :=
  ⟨commit_patch_back sampleTxn sampleStore sampleReturned 234 rfl
      (by decide) (by decide) rfl 0 (by decide),
   commit_patch_back sampleTxn sampleStore sampleReturned 234 rfl
      (by decide) (by decide) rfl 1 (by decide),
   rfl, rfl⟩

/-- C9: constructor postcondition — every newly constructed Transaction has a
null `id`, INITIAL status, an empty mutation list and an empty
partial-key-entity set. -/
theorem ctor_defaults (p : String) :
    (Transaction.init p).id = none
    ∧ (Transaction.init p).status = Status.INITIAL
    ∧ (Transaction.init p).mutations = []
    ∧ (Transaction.init p).partial_key_entities = [] :=
  ⟨rfl, rfl, rfl, rfl⟩

/-- C4: begin() failure atomicity — on a fresh Transaction, a transport error
from the BeginTransaction RPC is re-raised as that exact error, the local
state (in particular `id`) is left exactly as constructed, and a retried
begin() on the same instance succeeds, storing the server's id. -/
theorem begin_failure_atomic (p : String) (e : Nat) (tid : Nat) :
    (Transaction.init p).begin (Except.error e)
      = (Except.error (Err.Transport e), Transaction.init p, [RPC.beginTransaction p])
    ∧ (((Transaction.init p).begin (Except.error e)).2.1.begin (Except.ok tid)).1
      = Except.ok ()
    ∧ (((Transaction.init p).begin (Except.error e)).2.1.begin (Except.ok tid)).2.1.id
      = some tid := by
  refine ⟨?_, ?_, ?_⟩ <;> simp [Transaction.begin, Transaction.init]

/-- C5: tombstoning via rollback — after a successful begin() with server id
`tid`, rollback() issues exactly one Rollback RPC carrying the project and
that id, clears `id` to null, and every subsequent begin() on the same
instance fails with a state-violation error (before issuing any RPC). -/
theorem rollback_tombstones (p : String) (tid : Nat) (server : Except Nat Nat) :
    ((((Transaction.init p).begin (Except.ok tid)).2.1).rollback).2
      = [RPC.rollback p tid]
    ∧ ((((Transaction.init p).begin (Except.ok tid)).2.1).rollback).1.id = none
    ∧ (((((Transaction.init p).begin (Except.ok tid)).2.1).rollback).1.begin server)
      = (Except.error Err.ValueError,
         ((((Transaction.init p).begin (Except.ok tid)).2.1).rollback).1, []) := by
  refine ⟨?_, ?_, ?_⟩ <;>
    simp [Transaction.begin, Transaction.init, Transaction.rollback]

/-- C2: current() masking — on an empty stack current() is null; when the
innermost stack entry is a plain Batch, current() is null for every
Transaction instance asking (instances deeper in the stack included); only
when the innermost entry is itself a Transaction does current() return it,
and the answer never depends on which instance asks. -/
theorem current_masking (self other t : Transaction) (b : Batch) (rest : Stack) :
    self.current [] = none
    ∧ self.current (UoW.batch b :: rest) = none
    ∧ self.current (UoW.txn t :: rest) = some t
    ∧ ∀ stack : Stack, self.current stack = other.current stack := by
  refine ⟨rfl, rfl, rfl, fun stack => rfl⟩

/-- C6: transactional commit shape and consumption — on a Transaction whose
id is active, commit() succeeds, issues exactly one Commit RPC with mode
TRANSACTIONAL carrying that id and exactly the buffered mutation list, and
clears `id` to null afterwards (whatever keys the server returned and
whether or not any partial keys needed patching). -/
theorem commit_transactional_shape (t : Transaction) (store : EntityStore)
    (returned : List Key) (tid : Nat) (h : t.id = some tid) :
    (t.commit store returned).1 = Except.ok ()
    ∧ (t.commit store returned).2.2.2
      = [RPC.commit t.project Mode.TRANSACTIONAL t.mutations (some tid)]
    ∧ (t.commit store returned).2.1.id = none := by
  refine ⟨?_, ?_, ?_⟩ <;> simp [Transaction.commit, h]

/-- Witness for C6: the mid-flight sample Transaction (id 234, two staged
mutations), committed against a response with no keys. -/
theorem commit_transactional_shape_witness :
    (sampleTxn.commit sampleStore []).1 = Except.ok ()
    ∧ (sampleTxn.commit sampleStore []).2.2.2
      = [RPC.commit sampleTxn.project Mode.TRANSACTIONAL sampleTxn.mutations (some 234)]
    ∧ (sampleTxn.commit sampleStore []).2.1.id = none :=
  commit_transactional_shape sampleTxn sampleStore [] 234 rfl

theorem txnInv_init (p : String) : txnInv (Transaction.init p) := by
  simp [txnInv, Transaction.init]

theorem txnInv_step (t : Transaction) (a : Action) (h : txnInv t) :
    txnInv (t.step a) := by
  cases a with
  | beginT server =>
      by_cases hs : t.status = Status.INITIAL
      · cases server with
        | ok tid => simp [Transaction.step, Transaction.begin, hs, txnInv]
        | error e => simpa [Transaction.step, Transaction.begin, hs] using h
      · simpa [Transaction.step, Transaction.begin, hs] using h
  | putT store ent => simpa [Transaction.step, Transaction.put, txnInv] using h
  | commitT store returned =>
      cases hid : t.id with
      | none => simpa [Transaction.step, Transaction.commit, hid] using h
      | some tid => simp [Transaction.step, Transaction.commit, hid, txnInv]
  | rollbackT =>
      cases hid : t.id with
      | none => simpa [Transaction.step, Transaction.rollback, hid] using h
      | some tid => simp [Transaction.step, Transaction.rollback, hid, txnInv]

theorem txnInv_foldl (acts : List Action) :
    ∀ t : Transaction, txnInv t → txnInv (acts.foldl Transaction.step t) := by
  induction acts with
  | nil => exact fun t h => h
  | cons a acts ih => exact fun t h => ih (t.step a) (txnInv_step t a h)

/-- C7: lifecycle invariant — after any sequence of operations on a freshly
constructed Transaction (begin, both succeeding and failing, put, commit,
rollback, in any order), the server-assigned `id` is non-null exactly when
the status is IN_PROGRESS. -/
theorem lifecycle_invariant (p : String) (acts : List Action) :
    (acts.foldl Transaction.step (Transaction.init p)).id ≠ none
      ↔ (acts.foldl Transaction.step (Transaction.init p)).status
          = Status.IN_PROGRESS :=
  txnInv_foldl acts (Transaction.init p) (txnInv_init p)

theorem put_foldl_id (store : EntityStore) (puts : List Nat) :
    ∀ t : Transaction,
      (puts.foldl (fun acc ent => acc.put store ent) t).id = t.id
      ∧ (puts.foldl (fun acc ent => acc.put store ent) t).project = t.project := by
  induction puts with
  | nil => exact fun t => ⟨rfl, rfl⟩
  | cons e es ih =>
      intro t
      simpa [Transaction.put] using ih (t.put store e)

/-- C3: scoped-exit error path — a Transaction entered as a scoped unit of
work (begin succeeding with server id `tid`) whose body stages any puts and
then raises an arbitrary error: the exit issues exactly one Rollback RPC,
carrying the project and the transaction id, issues zero Commit RPCs, leaves
`id` null, pops the instance (the stack is restored exactly), and re-raises
the original error unchanged to the caller. -/
theorem scoped_exit_error (p : String) (tid : Nat) (stack : Stack)
    (store : EntityStore) (puts : List Nat) (e : Err) (returned : List Key) :
    ((Transaction.init p).with_scope stack (Except.ok tid) store puts
        (some e) returned).1 = some e
    ∧ ((Transaction.init p).with_scope stack (Except.ok tid) store puts
        (some e) returned).2.2.2.2
      = [RPC.beginTransaction p, RPC.rollback p tid]
    ∧ countCommits (((Transaction.init p).with_scope stack (Except.ok tid) store puts
        (some e) returned).2.2.2.2) = 0
    ∧ countRollbacks (((Transaction.init p).with_scope stack (Except.ok tid) store puts
        (some e) returned).2.2.2.2) = 1
    ∧ ((Transaction.init p).with_scope stack (Except.ok tid) store puts
        (some e) returned).2.1.id = none
    ∧ ((Transaction.init p).with_scope stack (Except.ok tid) store puts
        (some e) returned).2.2.1 = stack := by
  have hfold := put_foldl_id store puts
    (((Transaction.init p).begin (Except.ok tid)).2.1)
  have hid : (((Transaction.init p).begin (Except.ok tid)).2.1).id = some tid := by
    simp [Transaction.begin, Transaction.init]
  have hproj : (((Transaction.init p).begin (Except.ok tid)).2.1).project = p := by
    simp [Transaction.begin, Transaction.init]
  refine ⟨?_, ?_, ?_, ?_, ?_, ?_⟩ <;>
    simp [Transaction.with_scope, Transaction.begin, Transaction.init,
      Transaction.rollback, hfold.1, hfold.2, hid, hproj, countCommits,
      countRollbacks, RPC.isCommit, RPC.isRollback] <;>
    simp_all [Transaction.begin, Transaction.init, List.filter, RPC.isRollback]

end GCDatastore

namespace GCOperation

theorem mapInsert_self (m : TypeUrlMap) (u : String) (k : Nat)
    (h : mapLookup m u = some k) : mapInsert m u k = m := by
  induction m with
  | nil => simp [mapLookup] at h
  | cons p rest ih =>
      obtain ⟨u0, k0⟩ := p
      by_cases hu : u0 = u
      · subst hu
        simp [mapLookup] at h
        simp [mapInsert, h]
      · simp [mapLookup, hu] at h
        simp [mapInsert, hu, ih h]

/-- C10: type-URL registry conflict rule — `_register_type_url` raises
ValueError exactly when the URL is already registered to a different class;
re-registering the same class for the same URL succeeds and leaves the
mapping unchanged; and whenever ValueError is raised the registry is not
modified. -/
theorem register_type_url_conflict (m : TypeUrlMap) (u : String) (k : Nat) :
    ((register_type_url m u k).1.isSome
      ↔ ∃ k0, mapLookup m u = some k0 ∧ k0 ≠ k)
    ∧ ((register_type_url m u k).1.isSome → (register_type_url m u k).2 = m)
    ∧ (mapLookup m u = some k → register_type_url m u k = (none, m)) := by
  refine ⟨?_, ?_, ?_⟩
  · cases h : mapLookup m u with
    | none => simp [register_type_url, h]
    | some k0 =>
        by_cases hk : k0 = k
        · subst hk; simp [register_type_url, h]
        · simp [register_type_url, h, hk]
  · intro hs
    cases h : mapLookup m u with
    | none => simp [register_type_url, h] at hs
    | some k0 =>
        by_cases hk : k0 = k
        · subst hk; simp [register_type_url, h] at hs
        · simp [register_type_url, h, hk]
  · intro h
    simp [register_type_url, h, mapInsert_self m u k h]

/-- Witness for C10: on the registry {"a" ↦ 1}, registering class 2 for "a"
raises (naming the conflicting class 1) and leaves the registry unchanged;
re-registering class 1 for "a" succeeds and the registry is unchanged. -/
theorem register_type_url_conflict_witness :
    (register_type_url [("a", 1)] "a" 2).1.isSome = true
    ∧ (register_type_url [("a", 1)] "a" 2).2 = [("a", 1)]
    ∧ register_type_url [("a", 1)] "a" 1 = (none, [("a", 1)]) :=
  ⟨by decide,
   (register_type_url_conflict [("a", 1)] "a" 2).2.1 (by decide),
   (register_type_url_conflict [("a", 1)] "a" 1).2.2 (by decide)⟩

end GCOperation

namespace GCDatastore

theorem countCR_append (a b : List RPC) :
    countCR (a ++ b) = countCR a + countCR b := by
  simp [countCR, List.filter_append]

theorem countCR_nil : countCR [] = 0 := rfl

theorem countCR_one_begin (p : String) : countCR [RPC.beginTransaction p] = 0 := rfl

theorem countCR_one_rollback (p : String) (tid : Nat) :
    countCR [RPC.rollback p tid] = 1 := rfl

theorem countCR_one_commit (p : String) (m : Mode) (muts : List Mutation)
    (tx : Option Nat) : countCR [RPC.commit p m muts tx] = 1 := rfl

theorem countCR_cons (x : RPC) (l : List RPC) :
    countCR (x :: l) = (if RPC.isCommitRollback x = true then 1 else 0) + countCR l := by
  simp only [countCR, List.filter_cons]
  split <;> simp [Nat.add_comm]

theorem scopeOK_txn (body : ScopeList) (raises : Bool) (ih : ScopeListOK body) :
    ScopeOK (Scope.txnS body raises) := by
  intro p f
  obtain ⟨he, ho, hc⟩ := ih p (f + 1)
  have hB : ((Transaction.init p).begin (Except.ok f)).2.2
      = [RPC.beginTransaction p] := by
    simp [Transaction.begin, Transaction.init]
  have hR : (((Transaction.init p).begin (Except.ok f)).2.1.rollback).2
      = [RPC.rollback p f] := by
    simp [Transaction.begin, Transaction.init, Transaction.rollback]
  have hC : ((((Transaction.init p).begin (Except.ok f)).2.1.commit [] []).2.2.2)
      = [RPC.commit p Mode.TRANSACTIONAL [] (some f)] := by
    simp [Transaction.begin, Transaction.init, Transaction.commit]
  refine ⟨?_, ?_, ?_⟩
  · simp only [runScope, Scope.errs, he]
    cases hx : (ScopeList.errs body || raises) <;> simp [hx]
  · simp only [runScope, Scope.openedCount, he]
    cases hx : (ScopeList.errs body || raises) <;> simp [hx, ho]
  · simp only [runScope, Scope.crCount, he]
    cases hx : (ScopeList.errs body || raises) <;>
      simp [hx, hB, hR, hC, countCR_append, countCR_cons, countCR_one_begin, countCR_nil,
        countCR_one_rollback, countCR_one_commit, hc, RPC.isCommitRollback]

theorem scopeOK_batch (body : ScopeList) (raises : Bool) (ih : ScopeListOK body) :
    ScopeOK (Scope.batchS body raises) := by
  intro p f
  obtain ⟨he, ho, hc⟩ := ih p f
  have hN : ((Batch.init p).commit).2
      = [RPC.commit p Mode.NON_TRANSACTIONAL [] none] := by
    simp [Batch.init, Batch.commit]
  refine ⟨?_, ?_, ?_⟩
  · simp only [runScope, Scope.errs, he]
    cases hx : (ScopeList.errs body || raises) <;> simp [hx]
  · simp only [runScope, Scope.openedCount, he]
    cases hx : (ScopeList.errs body || raises) <;> simp [hx, ho]
  · simp only [runScope, Scope.crCount, he]
    cases hx : (ScopeList.errs body || raises) <;>
      simp [hx, hN, countCR_append, countCR_one_commit, hc]

theorem scopeListOK_nil : ScopeListOK ScopeList.nil := by
  intro p f
  refine ⟨rfl, rfl, rfl⟩

theorem scopeListOK_cons (s : Scope) (ss : ScopeList)
    (ih1 : ScopeOK s) (ih2 : ScopeListOK ss) :
    ScopeListOK (ScopeList.cons s ss) := by
  intro p f
  obtain ⟨he1, ho1, hc1⟩ := ih1 p f
  obtain ⟨he2, ho2, hc2⟩ := ih2 p (runScope p f s).fresh
  refine ⟨?_, ?_, ?_⟩
  · simp only [runScopes, ScopeList.errs, he1]
    cases hx : Scope.errs s <;> simp [hx, he2]
  · simp only [runScopes, ScopeList.openedCount, he1]
    cases hx : Scope.errs s <;> simp [hx, ho1, ho2]
  · simp only [runScopes, ScopeList.crCount, he1]
    cases hx : Scope.errs s <;> simp [hx, hc1, hc2, countCR_append]

theorem runScope_ok (s : Scope) : ScopeOK s :=
  @Scope.rec ScopeOK ScopeListOK scopeOK_txn scopeOK_batch
    scopeListOK_nil scopeListOK_cons s

/-- C8 counterexample: one scoped Batch unit of work whose body raises — one
unit of work is opened and fully unwound, yet zero commit/rollback RPC calls
fire (the Batch pops without committing), so the commit/rollback RPC count
does not equal the number of units opened. -/
theorem rpc_accounting_counterexample :
    (runScope "PROJECT" 0 (Scope.batchS ScopeList.nil true)).opened = 1
    ∧ countCR (runScope "PROJECT" 0 (Scope.batchS ScopeList.nil true)).log = 0
    ∧ countCR (runScope "PROJECT" 0 (Scope.batchS ScopeList.nil true)).log
      ≠ (runScope "PROJECT" 0 (Scope.batchS ScopeList.nil true)).opened := by
  refine ⟨by decide, by decide, by decide⟩

/-- C8 amended: for every fully unwound set of nested scoped units of work on
one client, the number of commit/rollback RPC calls equals the number of
units of work opened, except that a Batch scope exited via a raised error
pops without committing and fires none: each Transaction scope fires exactly
one (commit on normal exit, rollback on error exit) and each Batch scope
fires exactly one commit unless its body raised or propagated an error
(`Scope.crCount`); the units actually opened are counted by
`Scope.openedCount`, so the two counts agree exactly when every Batch scope
exits normally. -/
theorem rpc_accounting_amended (s : Scope) (p : String) (f : Nat) :
    countCR (runScope p f s).log = Scope.crCount s
    ∧ (runScope p f s).opened = Scope.openedCount s :=
  ⟨(runScope_ok s p f).2.2, (runScope_ok s p f).2.1⟩

end GCDatastore
